import Mathlib

/-
Verification of the chimerai agent-orchestration library.

The development shallowly embeds the Rust sources:
  src/agent/mod.rs    (Agent: handle_message, handle_message_stream,
                       execute_tool, execute_tool_static)
  src/memory/mod.rs   (BasicShortTermMemory: add_message, get_context_messages)
  src/llm/openai/mod.rs (parse_openai_response_into_decision,
                         parse_openai_stream_chunk_into_decision)

Conventions of the embedding:
  * Rust HashMap<String, V> is modelled as an insertion list `HMap V`
    with `hinsert` replacing an existing binding in place and `hget?`
    returning the first binding; iteration is list order (HashMap order
    is arbitrary; none of the verified facts depend on it).
  * Fallible Rust code that can panic is modelled with Option, `none`
    standing for the panic.
  * Asynchronous suspension points (the provider request under a timeout
    in handle_message, the chunk stream in handle_message_stream) are
    modelled by an explicit list of events supplied by the environment;
    the loop consumes one event per provider round.  A run that needs
    more events than were supplied evaluates to `none` (undetermined).
  * The data model (Message, Decision, ToolCallArgs, ToolExecutionResult,
    AgentConfig, AgentState) is embedded in the shape used by
    src/agent/mod.rs, src/memory/mod.rs and src/llm/openai/mod.rs
    (the file src/types/mod.rs in the tree is an older, superseded
    iteration that does not match the code the claims are about).
-/

namespace Chimerai

/-- Minimal JSON value model (serde_json::Value). Numbers are irrelevant to
the verified operations and are carried as Int. -/
inductive Json where
  | null
  | bool (b : Bool)
  | num (n : Int)
  | str (s : String)
  | arr (elems : List Json)
  | obj (fields : List (String × Json))

/-- First binding of a key in an association list (serde object lookup). -/
def fieldGet? : List (String × Json) → String → Option Json
  | [], _ => none
  | (k, v) :: rest, key => if k = key then some v else fieldGet? rest key

/-- serde_json `Value::index` with a string key: objects look the field up
and missing fields give Null; every non-object gives Null. -/
def jvget (j : Json) (key : String) : Json :=
  match j with
  | .obj fields => (fieldGet? fields key).getD .null
  | _ => .null

/-- serde_json `Value::get` with a string key: `none` on non-objects and
missing fields (no Null defaulting). -/
def jget? (j : Json) (key : String) : Option Json :=
  match j with
  | .obj fields => fieldGet? fields key
  | _ => none

/-- serde_json `Value::as_array`. -/
def Json.as_array : Json → Option (List Json)
  | .arr elems => some elems
  | _ => none

/-- serde_json `Value::as_str`. -/
def Json.as_str : Json → Option String
  | .str s => some s
  | _ => none

/-- serde_json `Value::as_object`. -/
def Json.as_object : Json → Option (List (String × Json))
  | .obj fields => some fields
  | _ => none

/-- Model of Rust HashMap<String, V>: an association list whose `hinsert`
replaces an existing binding in place. -/
abbrev HMap (V : Type) := List (String × V)

/-- HashMap::insert (ignoring the returned previous value). -/
def hinsert {V : Type} : HMap V → String → V → HMap V
  | [], k, v => [(k, v)]
  | (k', v') :: rest, k, v =>
      if k' = k then (k, v) :: rest else (k', v') :: hinsert rest k v

/-- HashMap::get. -/
def hget? {V : Type} : HMap V → String → Option V
  | [], _ => none
  | (k', v) :: rest, k => if k' = k then some v else hget? rest k

/-- types::ToolCallArgs as used by src/agent/mod.rs and src/llm/openai/mod.rs:
call kind ("function"), tool name, structured arguments. -/
structure ToolCallArgs where
  tool_type : String
  tool_name : String
  args : Json

/-- types::Message as used by src/agent/mod.rs and src/memory/mod.rs: a tagged
variant over Developer/System/User/Assistant/Tool, Assistant optionally
carrying the requested call map and Tool carrying the call id it answers. -/
inductive Message where
  | developer (content : String)
  | system (content : String)
  | user (content : String)
  | assistant (content : String) (tool_calls : Option (HMap ToolCallArgs))
  | tool (content : String) (tool_call_id : String)

/-- types::Decision as used by src/agent/mod.rs and src/llm/openai/mod.rs. -/
inductive Decision where
  | ExecuteTool (text : String) (calls : HMap ToolCallArgs)
  | Respond (text : String)

/-- types::ToolExecutionResult: per-call successes and failures. -/
structure ToolExecutionResult where
  success_result : HMap String
  failure_result : HMap String
deriving DecidableEq

/-- types::AgentState. -/
inductive AgentState where
  | Ready
  | Processing
  | WaitingForUserInput
  | Error (reason : String)
  | Terminated
deriving DecidableEq

/-- types::RetryConfig.  retry_delay (a Duration) and should_retry_on_error
are never read by the agent code and are omitted. -/
structure RetryConfig where
  max_retries : Nat
deriving DecidableEq

/-- types::AgentConfig.  temperature (f32) and timeout (Duration) are only
handed to the provider transport and are omitted; the verified operations
read max_tokens and retry_config. -/
structure AgentConfig where
  system_prompt : String
  max_turns : Nat
  max_tokens : Option Nat
  enable_parallel : Bool
  retry_config : RetryConfig
deriving DecidableEq

/-- Model of a registered tool (trait Tool, a Box<dyn Tool> in the agent):
its name and its execute method, Err carrying the error text.  description
and args_schema only feed the provider request and are omitted. -/
structure Tool where
  name : String
  exec : Json → Except String String

/-- tools.iter().find(|t| t.name() == name) as used by execute_tool_static. -/
def findTool : List Tool → String → Option Tool
  | [], _ => none
  | t :: rest, nm => if t.name = nm then some t else findTool rest nm

/-- The filter_map closure of Agent::execute_tool (src/agent/mod.rs lines
181-195): look each call up by name; a missing tool inserts a failure
**keyed by the tool name** (the source does
`failure_result.insert(args.tool_name.clone(), ...)`); found tools are
collected with their arguments and call id. -/
def execute_tool_lookup_step (tools : HMap Tool)
    (acc : HMap String × List (Tool × Json × String))
    (p : String × ToolCallArgs) :
    HMap String × List (Tool × Json × String) :=
  match hget? tools p.2.tool_name with
  | none =>
      (hinsert acc.1 p.2.tool_name
         ("Tool " ++ p.2.tool_name ++ " does not exist!"), acc.2)
  | some t => (acc.1, acc.2 ++ [(t, p.2.args, p.1)])

/-- The execution loop of Agent::execute_tool (src/agent/mod.rs lines
196-205): run one collected call and record success or failure keyed by
the call id. -/
def execute_tool_run_step (acc : HMap String × HMap String)
    (r : Tool × Json × String) : HMap String × HMap String :=
  match r.1.exec r.2.1 with
  | .ok out => (hinsert acc.1 r.2.2 out, acc.2)
  | .error e => (acc.1, hinsert acc.2 r.2.2 e)

/-- Agent::execute_tool (src/agent/mod.rs lines 175-211): the lookup pass
followed by the execution pass. -/
def execute_tool (tools : HMap Tool) (args : HMap ToolCallArgs) :
    ToolExecutionResult :=
  let phase1 := args.foldl (execute_tool_lookup_step tools) ([], [])
  let res := phase1.2.foldl execute_tool_run_step ([], phase1.1)
  ⟨res.1, res.2⟩

/-- The loop body of Agent::execute_tool_static (src/agent/mod.rs lines
366-384): find the tool by name among the tool list; both the missing-tool
failure and the execution outcome are keyed by the call id. -/
def execute_tool_static_step (tools : List Tool)
    (acc : HMap String × HMap String) (p : String × ToolCallArgs) :
    HMap String × HMap String :=
  match findTool tools p.2.tool_name with
  | some t =>
      match t.exec p.2.args with
      | .ok out => (hinsert acc.1 p.1 out, acc.2)
      | .error e => (acc.1, hinsert acc.2 p.1 e)
  | none =>
      (acc.1, hinsert acc.2 p.1
         ("Tool " ++ p.2.tool_name ++ " does not exist!"))

/-- Agent::execute_tool_static (src/agent/mod.rs lines 359-389). -/
def execute_tool_static (args : HMap ToolCallArgs) (tools : List Tool) :
    ToolExecutionResult :=
  let res := args.foldl (execute_tool_static_step tools) ([], [])
  ⟨res.1, res.2⟩

/-- Content of a message (the match in BasicShortTermMemory
get_context_messages, src/memory/mod.rs lines 264-270). -/
def msgContent : Message → String
  | .developer c => c
  | .system c => c
  | .user c => c
  | .assistant c _ => c
  | .tool c _ => c

/-- Counts the maximal nonempty runs of non-whitespace characters; the
Bool flag records whether the previous character was inside a word. -/
def count_words_chars : List Char → Bool → Nat
  | [], _ => 0
  | c :: rest, inWord =>
      if c.isWhitespace then count_words_chars rest false
      else
        match inWord with
        | true => count_words_chars rest true
        | false => 1 + count_words_chars rest true

/-- text.split_whitespace().count(): the number of words of the text, a
word being a maximal nonempty run of non-whitespace characters (leading,
trailing and repeated whitespace produce no empty words). -/
def count_words (text : String) : Nat :=
  count_words_chars text.data false

/-- BasicShortTermMemory::estimate_tokens (src/memory/mod.rs lines 246-249):
`(text.split_whitespace().count() as f32 * 1.3) as usize`.  The f32
multiplication by 1.3 followed by truncation is modelled as the rational
⌊13·n/10⌋ (for a handful of word counts the f32 rounding gives a value one
lower, e.g. 10 words → 12 instead of 13; none of the verified properties
depend on the exact constant, only on the cost being a fixed function of
the message). -/
def estimate_tokens (text : String) : Nat :=
  count_words text * 13 / 10

/-- The newest-first accumulation loop of get_context_messages
(src/memory/mod.rs lines 262-277): walk the (already reversed) history,
keep a running token total, and stop at the first message that would push
the total over the budget. -/
def take_within_budget (mt : Nat) : Nat → List Message → List Message
  | _, [] => []
  | total, m :: rest =>
      let tokens := estimate_tokens (msgContent m)
      if total + tokens > mt then []
      else m :: take_within_budget mt (total + tokens) rest

/-- BasicShortTermMemory::get_context_messages (src/memory/mod.rs lines
257-285).  The memory is the message list itself (add_message pushes onto
it); the function takes `&self` in Rust and is embedded as a pure function
of the history, so computing a view leaves the underlying history
untouched by construction. -/
def get_context_messages (messages : List Message) (max_tokens : Option Nat) :
    List Message :=
  match max_tokens with
  | some mt => (take_within_budget mt 0 messages.reverse).reverse
  | none => messages

/-- Summed estimated token cost of a message list. -/
def tokensSum (l : List Message) : Nat :=
  (l.map (fun m => estimate_tokens (msgContent m))).sum

/- ------------------------------------------------------------------
Decision protocol translator (src/llm/openai/mod.rs)
------------------------------------------------------------------ -/

/-- The tool-call accumulation loop in parse_openai_response_into_decision
(src/llm/openai/mod.rs lines 263-287).  `fromStr` models
serde_json::from_str for the argument text (`none` = parse error, which the
source replaces with the empty object).  The source indexes the function
object with `function["name"]` / `function["arguments"]`, and
serde_json::Map panics when the key is missing: that panic is the `none`
outcome. -/
def buildToolCallsMap (fromStr : String → Option Json) :
    List Json → HMap ToolCallArgs → Option (HMap ToolCallArgs)
  | [], acc => some acc
  | tool_call :: rest, acc =>
      match (jvget tool_call "id").as_str, (jvget tool_call "function").as_object with
      | some id, some fobj =>
          match fieldGet? fobj "name", fieldGet? fobj "arguments" with
          | some nv, some av =>
              match nv.as_str, av.as_str with
              | some nm, some args_str =>
                  let parsed_args := (fromStr args_str).getD (Json.obj [])
                  buildToolCallsMap fromStr rest
                    (hinsert acc id ⟨"function", nm, parsed_args⟩)
              | _, _ => buildToolCallsMap fromStr rest acc
          | _, _ => none
      | _, _ => buildToolCallsMap fromStr rest acc

/-- parse_openai_response_into_decision (src/llm/openai/mod.rs lines
251-299).  The Rust function returns Result but every path yields Ok; the
only abnormal exit is the Map-index panic inside the tool-call loop,
modelled by `none`. -/
def parse_openai_response_into_decision (fromStr : String → Option Json)
    (response_json : Json) : Option Decision :=
  let choices := (jvget response_json "choices").as_array.getD []
  match choices with
  | [] => some (.Respond "")
  | c0 :: _ =>
      let message := jvget c0 "message"
      let content := (jvget message "content").as_str.getD ""
      match (jvget message "tool_calls").as_array with
      | some tool_calls =>
          match buildToolCallsMap fromStr tool_calls [] with
          | none => none
          | some m =>
              if m.isEmpty then some (.Respond content)
              else some (.ExecuteTool content m)
      | none => some (.Respond content)

/-- The tool-call accumulation loop in parse_openai_stream_chunk_into_decision
(src/llm/openai/mod.rs lines 322-345).  Unlike the batch parser this one
uses the panic-free `.get(...)` accessors throughout. -/
def buildToolCallsMapStream (fromStr : String → Option Json) :
    List Json → HMap ToolCallArgs → HMap ToolCallArgs
  | [], acc => acc
  | tool_call :: rest, acc =>
      match (jget? tool_call "id").bind Json.as_str,
            (jget? tool_call "function").bind Json.as_object with
      | some id, some fobj =>
          match (fieldGet? fobj "name").bind Json.as_str,
                (fieldGet? fobj "arguments").bind Json.as_str with
          | some nm, some args_str =>
              buildToolCallsMapStream fromStr rest
                (hinsert acc id ⟨"function", nm, (fromStr args_str).getD (Json.obj [])⟩)
          | _, _ => buildToolCallsMapStream fromStr rest acc
      | _, _ => buildToolCallsMapStream fromStr rest acc

/-- parse_openai_stream_chunk_into_decision (src/llm/openai/mod.rs lines
303-355).  After the `match chunk["choices"].as_array()` guard the source
evaluates `&choices[0]["delta"]`, a Vec index that panics when the choices
array is empty; `choices.get? 0 = none` models that panic as `none`. -/
def parse_openai_stream_chunk_into_decision (fromStr : String → Option Json)
    (chunk : Json) : Option Decision :=
  match (jvget chunk "choices").as_array with
  | none => some (.Respond "")
  | some choices =>
      match choices.get? 0 with
      | none => none
      | some c0 =>
          let delta := jvget c0 "delta"
          let content := (jvget delta "content").as_str.getD ""
          match (jget? delta "tool_calls").bind Json.as_array with
          | some tool_calls =>
              let m := buildToolCallsMapStream fromStr tool_calls []
              if m.isEmpty then some (.Respond content)
              else some (.ExecuteTool content m)
          | none => some (.Respond content)

/- ------------------------------------------------------------------
Conversation orchestrator (src/agent/mod.rs)
------------------------------------------------------------------ -/

/-- The errors handle_message / handle_message_stream can produce, one
constructor per distinct anyhow! site:
  notReady         = "Agent is not in ready state"
  llm e            = an error propagated from get_decision by the `?`
  timedOut         = "LLM request timed out"
  retriesExceeded  = the after-loop "超过最大重试次数" error. -/
inductive AgentErr where
  | notReady
  | llm (e : String)
  | timedOut
  | retriesExceeded
deriving DecidableEq

/-- Mutable agent fields touched by a handle call: the short-term memory
(instantiated, as in the tests, with BasicShortTermMemory, i.e. the raw
message list) and the state field. -/
structure AgentSt where
  short_term_memory : List Message
  state : AgentState

/-- One provider round as observed through
`timeout(self.config.timeout, self.get_decision(&context)).await`:
the round either times out, yields a get_decision error (propagated by
`?`), or yields a Decision. -/
inductive RoundEvent where
  | timeout
  | llmError (e : String)
  | decision (d : Decision)

/-- `tool_calls.get(&tool_call_id).map(|t| t.tool_name.as_str()).unwrap_or(tool_call_id.as_str())`
(src/agent/mod.rs line 122): the display name for a failed call. -/
def toolNameFor (tc : HMap ToolCallArgs) (tool_call_id : String) : String :=
  match hget? tc tool_call_id with
  | some a => a.tool_name
  | none => tool_call_id

/-- The failure notice handle_message appends for a failed call
(src/agent/mod.rs lines 120-124): tool name, error text, and the statement
that the call will not be retried. -/
def fail_notice (name err : String) : String :=
  "工具 " ++ name ++ " 执行失败（错误信息：" ++ err ++
    "）。由于无法重试，请考虑使用其他方式解决问题或给出合适的响应。"

/-- The failure notice handle_message_stream appends for a failed call
(src/agent/mod.rs lines 322-326): tool name and error text only. -/
def stream_fail_notice (name err : String) : String :=
  "工具 " ++ name ++ " 执行失败（错误信息：" ++ err ++ "）。"

/-- The ExecuteTool arm of handle_message (src/agent/mod.rs lines 100-128):
append the assistant message carrying the call map, run execute_tool, then
append one Tool message per success and one per failure. -/
def apply_tool_round (tools : HMap Tool) (stm : List Message) (txt : String)
    (tc : HMap ToolCallArgs) : List Message :=
  let res := execute_tool tools tc
  stm ++ [Message.assistant txt (some tc)]
    ++ res.success_result.map (fun p => Message.tool p.2 p.1)
    ++ res.failure_result.map
         (fun p => Message.tool (fail_notice (toolNameFor tc p.1) p.2) p.1)

/-- The round loop of Agent::handle_message (src/agent/mod.rs lines
93-155).  The while guard `retries < max_retries` is checked before each
round; a consumed event corresponds to one provider request.  The timeout
arm re-checks the same guard before incrementing (source lines
146-150), keeping its terminal "LLM request timed out" return in the
embedding exactly where the source has it. -/
def handle_loop (cfg : AgentConfig) (tools : HMap Tool) :
    List RoundEvent → Nat → List Message → List Message →
    Option (AgentSt × Except AgentErr String)
  | [], retries, stm, _ctx =>
      if retries < cfg.retry_config.max_retries then none
      else some (⟨stm, .Processing⟩, .error .retriesExceeded)
  | ev :: rest, retries, stm, ctx =>
      if retries < cfg.retry_config.max_retries then
        match ev with
        | .timeout =>
            if retries < cfg.retry_config.max_retries then
              handle_loop cfg tools rest (retries + 1) stm ctx
            else some (⟨stm, .Processing⟩, .error .timedOut)
        | .llmError e => some (⟨stm, .Processing⟩, .error (.llm e))
        | .decision (.Respond resp) =>
            some (⟨stm ++ [Message.assistant resp none], .Ready⟩, .ok resp)
        | .decision (.ExecuteTool txt tc) =>
            let stm2 := apply_tool_round tools stm txt tc
            handle_loop cfg tools rest retries stm2
              (get_context_messages stm2 cfg.max_tokens)
      else some (⟨stm, .Processing⟩, .error .retriesExceeded)

/-- Agent::handle_message (src/agent/mod.rs lines 76-156): the Ready check,
the user-message append, the initial context view, then the round loop.
The result pairs the final mutable fields with the returned Result. -/
def handle_message (cfg : AgentConfig) (tools : HMap Tool)
    (events : List RoundEvent) (st : AgentSt) (message : String) :
    Option (AgentSt × Except AgentErr String) :=
  match st.state with
  | .Ready =>
      let stm := st.short_term_memory ++ [Message.user message]
      handle_loop cfg tools events 0 stm (get_context_messages stm cfg.max_tokens)
  | _ => some (st, .error .notReady)

/-- One round of the streaming transport as observed through
`timeout(timeout_duration, llm.stream_complete(...)).await`: a timeout, an
immediate stream_complete error, or the list of per-frame Decision results
the stream of that round delivers. -/
inductive StreamEvent where
  | timeout
  | llmError (e : String)
  | chunks (cs : List (Except String Decision))

/-- The inner `while let Some(decision_result) = decision_stream.next()`
loop of handle_message_stream (src/agent/mod.rs lines 283-301): accumulate
the full response, remember the last-seen call map, and yield each piece
of text (or error) in order. -/
def process_chunks :
    List (Except String Decision) → String → Option (HMap ToolCallArgs) →
    List (Except AgentErr String) →
    String × Option (HMap ToolCallArgs) × List (Except AgentErr String)
  | [], fr, tco, ys => (fr, tco, ys)
  | .ok (.ExecuteTool ptxt tcm) :: rest, fr, _tco, ys =>
      process_chunks rest (fr ++ ptxt) (some tcm) (ys ++ [.ok ptxt])
  | .ok (.Respond ptxt) :: rest, fr, tco, ys =>
      process_chunks rest (fr ++ ptxt) tco (ys ++ [.ok ptxt])
  | .error e :: rest, fr, tco, ys =>
      process_chunks rest fr tco (ys ++ [.error (.llm e)])

/-- The failure messages handle_message_stream appends (src/agent/mod.rs
lines 321-331).  The source does `tc.get(&tool_call_id).unwrap()`; the
`none` outcome models that unwrap panicking. -/
def stream_fail_messages (tc : HMap ToolCallArgs) :
    HMap String → Option (List Message)
  | [] => some []
  | (tool_call_id, err) :: rest =>
      match hget? tc tool_call_id with
      | none => none
      | some a =>
          match stream_fail_messages tc rest with
          | none => none
          | some ms =>
              some (Message.tool (stream_fail_notice a.tool_name err)
                      tool_call_id :: ms)

/-- The tool-execution block of handle_message_stream (src/agent/mod.rs
lines 304-331): append the assistant message with the call map, run
execute_tool_static, append the success messages then the failure
messages. -/
def apply_tool_round_stream (tools : List Tool) (stm : List Message)
    (full_response : String) (tc : HMap ToolCallArgs) :
    Option (List Message) :=
  let res := execute_tool_static tc tools
  match stream_fail_messages tc res.failure_result with
  | none => none
  | some fmsgs =>
      some (stm ++ [Message.assistant full_response (some tc)]
        ++ res.success_result.map (fun p => Message.tool p.2 p.1)
        ++ fmsgs)

/-- The generator loop of handle_message_stream (src/agent/mod.rs lines
252-352).  Returns the yielded items and the final mutable fields;
`none` is either an exhausted event oracle or the unwrap panic in the
failure-message block.  Note the timeout arm: this loop is a bare `loop`
(no while guard), so the `retries < max_retries` check decides between
retrying and yielding the timeout error. -/
def stream_loop (cfg : AgentConfig) (tools : List Tool) :
    List StreamEvent → Nat → List Message → List Message → String →
    List (Except AgentErr String) →
    Option (List (Except AgentErr String) × AgentSt)
  | [], _retries, _stm, _ctx, _fr, _acc => none
  | ev :: rest, retries, stm, ctx, fr, acc =>
      match ev with
      | .llmError e => some (acc ++ [.error (.llm e)], ⟨stm, .Processing⟩)
      | .timeout =>
          if retries < cfg.retry_config.max_retries then
            stream_loop cfg tools rest (retries + 1) stm ctx fr acc
          else some (acc ++ [.error .timedOut], ⟨stm, .Processing⟩)
      | .chunks cs =>
          match process_chunks cs fr none [] with
          | (fr2, some tc, ys) =>
              match apply_tool_round_stream tools stm fr2 tc with
              | none => none
              | some stm3 =>
                  stream_loop cfg tools rest retries stm3
                    (get_context_messages stm3 cfg.max_tokens) "" (acc ++ ys)
          | (fr2, none, ys) =>
              some (acc ++ ys, ⟨stm ++ [Message.assistant fr2 none], .Ready⟩)

/-- Agent::handle_message_stream (src/agent/mod.rs lines 223-356): the
Ready check and user-message append happen before the stream is built;
the stream body is then run to completion.  The triple is (final mutable
fields, yielded items, the immediate Result of the call). -/
def handle_message_stream (cfg : AgentConfig) (tools : List Tool)
    (events : List StreamEvent) (st : AgentSt) (message : String) :
    Option (AgentSt × List (Except AgentErr String) × Except AgentErr Unit) :=
  match st.state with
  | .Ready =>
      let stm := st.short_term_memory ++ [Message.user message]
      match stream_loop cfg tools events 0 stm
              (get_context_messages stm cfg.max_tokens) "" [] with
      | none => none
      | some (ys, st2) => some (st2, ys, .ok ())
  | _ => some (st, [], .error .notReady)

/- ------------------------------------------------------------------
Claims about the tool execution coordinator (C1, C2, C8)
------------------------------------------------------------------ -/

/-- A single-call batch whose tool name is not registered. -/
def c1_batch : HMap ToolCallArgs := [("id", ⟨"function", "missing", Json.null⟩)]

/-- C1: the partition invariant (success keys ∪ failure keys = batch call-id
set, disjointly) FAILS for Agent::execute_tool: on a batch whose single
call-id is "id" requesting the unregistered tool "missing", the returned
result records the failure under the key "missing" (the tool name), so the
call-id "id" appears in neither map and the key union is {"missing"} ≠
{"id"}.  The code contradicts the contract stated in the spec, assumed by
the failure formatting of handle_message itself (which looks the failure key up in
the call map as a call-id, src/agent/mod.rs line 122), and implemented by
execute_tool_static. -/
theorem c1_execute_tool_partition_violation :
    (execute_tool [] c1_batch).success_result = []
    ∧ (execute_tool [] c1_batch).failure_result
        = [("missing", "Tool missing does not exist!")]
    ∧ hget? (execute_tool [] c1_batch).success_result "id" = none
    ∧ hget? (execute_tool [] c1_batch).failure_result "id" = none :=
  ⟨rfl, rfl, rfl, rfl⟩

/-- The registered tool set for the C2 scenario. -/
def c2_echo_tool : Tool := ⟨"echo", fun _ => .ok "echoed"⟩

/-- Registered tool map for C2: only "echo". -/
def c2_tools : HMap Tool := [("echo", c2_echo_tool)]

/-- C2 batch: call "idA" asks for the unregistered tool "missing", call
"idB" asks for the registered tool "echo". -/
def c2_batch : HMap ToolCallArgs :=
  [("idA", ⟨"function", "missing", Json.null⟩),
   ("idB", ⟨"function", "echo", Json.str "x"⟩)]

/-- C2: for an unregistered tool, Agent::execute_tool does record a
"does not exist" failure without aborting the batch (the registered call
"idB" still executes and succeeds), but the failure is keyed by the TOOL
NAME "missing", not by the call-id "idA" as the claim states: looking the
failure map up at the call-id gives nothing. -/
theorem c2_missing_tool_failure_keyed_by_name :
    hget? (execute_tool c2_tools c2_batch).failure_result "idA" = none
    ∧ hget? (execute_tool c2_tools c2_batch).failure_result "missing"
        = some "Tool missing does not exist!"
    ∧ hget? (execute_tool c2_tools c2_batch).success_result "idB"
        = some "echoed"
    ∧ hget? (execute_tool c2_tools c2_batch).success_result "idA" = none :=
  ⟨rfl, rfl, rfl, rfl⟩

/-- A single-call batch with an unregistered tool, for C8. -/
def c8_batch : HMap ToolCallArgs := [("cid", ⟨"function", "nope", Json.null⟩)]

/-- C8 counterexample: the two tool-execution implementations disagree on a
batch containing an unregistered tool: execute_tool records the failure
under the tool name "nope", execute_tool_static under the call-id "cid",
so the two results are not equal. -/
theorem c8_counterexample_impls_differ :
    hget? (execute_tool [] c8_batch).failure_result "cid" = none
    ∧ hget? (execute_tool_static c8_batch []).failure_result "cid"
        = some "Tool nope does not exist!"
    ∧ hget? (execute_tool [] c8_batch).failure_result "nope"
        = some "Tool nope does not exist!"
    ∧ hget? (execute_tool_static c8_batch []).failure_result "nope" = none :=
  ⟨rfl, rfl, rfl, rfl⟩

/-- Fallback tool used to express the lookup of a name that is known to be
registered. -/
def lookupToolD (tools : HMap Tool) (nm : String) : Tool :=
  (hget? tools nm).getD ⟨"", fun _ => .error ""⟩

theorem findTool_map_snd (tools : HMap Tool) (nm : String)
    (hreg : ∀ p ∈ tools, (p.2).name = p.1) :
    findTool (tools.map Prod.snd) nm = hget? tools nm := by
  induction tools with
  | nil => rfl
  | cons hd tl ih =>
      obtain ⟨k, t⟩ := hd
      have hname : t.name = k := hreg (k, t) (List.mem_cons_self _ _)
      have htl : ∀ p ∈ tl, (p.2).name = p.1 :=
        fun p hp => hreg p (List.mem_cons_of_mem _ hp)
      simp only [List.map_cons, findTool, hget?, hname]
      by_cases hk : k = nm
      · simp [hk]
      · simp [hk, ih htl]

theorem execute_tool_lookup_all_found (tools : HMap Tool)
    (args : HMap ToolCallArgs) (f : HMap String)
    (pend : List (Tool × Json × String))
    (hfound : ∀ p ∈ args, (hget? tools p.2.tool_name).isSome = true) :
    args.foldl (execute_tool_lookup_step tools) (f, pend)
      = (f, pend ++ args.map
          (fun p => (lookupToolD tools p.2.tool_name, p.2.args, p.1))) := by
  induction args generalizing pend with
  | nil => simp
  | cons a args ih =>
      have ha : (hget? tools a.2.tool_name).isSome = true :=
        hfound a (List.mem_cons_self _ _)
      obtain ⟨t, ht⟩ := Option.isSome_iff_exists.mp ha
      have hrest : ∀ p ∈ args, (hget? tools p.2.tool_name).isSome = true :=
        fun p hp => hfound p (List.mem_cons_of_mem _ hp)
      simp only [List.foldl_cons, execute_tool_lookup_step, ht]
      rw [ih _ hrest]
      simp [lookupToolD, ht]

theorem execute_tool_run_eq_static (tools : HMap Tool)
    (args : HMap ToolCallArgs) (s f : HMap String)
    (hreg : ∀ p ∈ tools, (p.2).name = p.1)
    (hfound : ∀ p ∈ args, (hget? tools p.2.tool_name).isSome = true) :
    List.foldl execute_tool_run_step (s, f)
      (args.map (fun p => (lookupToolD tools p.2.tool_name, p.2.args, p.1)))
    = args.foldl (execute_tool_static_step (tools.map Prod.snd)) (s, f) := by
  induction args generalizing s f with
  | nil => rfl
  | cons a args ih =>
      have ha : (hget? tools a.2.tool_name).isSome = true :=
        hfound a (List.mem_cons_self _ _)
      obtain ⟨t, ht⟩ := Option.isSome_iff_exists.mp ha
      have hrest : ∀ p ∈ args, (hget? tools p.2.tool_name).isSome = true :=
        fun p hp => hfound p (List.mem_cons_of_mem _ hp)
      simp only [List.map_cons, List.foldl_cons, execute_tool_run_step,
        execute_tool_static_step, findTool_map_snd tools _ hreg, ht,
        lookupToolD, Option.getD_some]
      cases t.exec a.2.args <;> exact ih _ _ hrest

/-- C8 (amended): when every call in the batch names a registered tool the
two implementations agree exactly; they differ only on missing tools
(see the counterexample), where execute_tool keys the failure by tool name
and execute_tool_static by call-id.  The hypothesis hreg is the
registration invariant maintained by Agent::register_tool, which inserts
every tool under its own name (src/agent/mod.rs line 54); `tools.map
Prod.snd` is self.tools.values() as captured by handle_message_stream. -/
theorem c8_impls_agree_when_all_registered (tools : HMap Tool)
    (args : HMap ToolCallArgs)
    (hreg : ∀ p ∈ tools, (p.2).name = p.1)
    (hfound : ∀ p ∈ args, (hget? tools p.2.tool_name).isSome = true) :
    execute_tool tools args = execute_tool_static args (tools.map Prod.snd) := by
  unfold execute_tool execute_tool_static
  rw [execute_tool_lookup_all_found tools args [] [] hfound]
  simp only [List.nil_append]
  rw [execute_tool_run_eq_static tools args [] [] hreg hfound]

/-- Witness for the amended C8 theorem: a registered "ok_tool" batch. -/
theorem c8_impls_agree_witness :
    (∀ p ∈ ([("ok_tool", (⟨"ok_tool", fun _ => .ok "fine"⟩ : Tool))] : HMap Tool),
        (p.2).name = p.1)
    ∧ (∀ p ∈ ([("id1", ⟨"function", "ok_tool", Json.null⟩)] : HMap ToolCallArgs),
        (hget? ([("ok_tool", (⟨"ok_tool", fun _ => .ok "fine"⟩ : Tool))] : HMap Tool)
           p.2.tool_name).isSome = true)
    ∧ execute_tool [("ok_tool", ⟨"ok_tool", fun _ => .ok "fine"⟩)]
        [("id1", ⟨"function", "ok_tool", Json.null⟩)]
      = execute_tool_static [("id1", ⟨"function", "ok_tool", Json.null⟩)]
          (([("ok_tool", (⟨"ok_tool", fun _ => .ok "fine"⟩ : Tool))] : HMap Tool).map Prod.snd) := by
  refine ⟨?_, ?_, ?_⟩
  · intro p hp
    simp only [List.mem_singleton] at hp
    rw [hp]
  · intro p hp
    simp only [List.mem_singleton] at hp
    rw [hp]
    rfl
  · exact c8_impls_agree_when_all_registered _ _
      (by intro p hp; simp only [List.mem_singleton] at hp; rw [hp])
      (by intro p hp; simp only [List.mem_singleton] at hp; rw [hp]; rfl)

/- ------------------------------------------------------------------
Claims about the decision protocol translator (C6, C9)
------------------------------------------------------------------ -/

/-- C6: whenever the "choices" field of the provider response is absent or
not an array (as_array gives none, so the unwrap_or falls back to the
empty vector) or is an empty array, the batch parser degrades to
Respond("") instead of failing.  This holds for every model of
serde_json::from_str. -/
theorem c6_empty_choices_respond_empty
    (fromStr : String → Option Json) (response_json : Json)
    (h : (jvget response_json "choices").as_array = none
       ∨ (jvget response_json "choices").as_array = some []) :
    parse_openai_response_into_decision fromStr response_json
      = some (.Respond "") := by
  unfold parse_openai_response_into_decision
  rcases h with h | h <;> rw [h] <;> rfl

/-- Witness for C6: a response object with no "choices" field at all. -/
theorem c6_empty_choices_witness :
    ((jvget (Json.obj []) "choices").as_array = none
       ∨ (jvget (Json.obj []) "choices").as_array = some [])
    ∧ parse_openai_response_into_decision (fun _ => none) (Json.obj [])
        = some (.Respond "") :=
  ⟨Or.inl rfl,
   c6_empty_choices_respond_empty (fun _ => none) (Json.obj []) (Or.inl rfl)⟩

/-- C9: on the chunk {"choices": []} the streaming parser hits the
unguarded `&choices[0]["delta"]` Vec index and panics (the embedding value
`none`), while the batch parser returns Respond("") for the same shape,
for every model of serde_json::from_str. -/
theorem c9_stream_chunk_parser_panics_on_empty_choices
    (fromStr : String → Option Json) :
    parse_openai_stream_chunk_into_decision fromStr
        (Json.obj [("choices", Json.arr [])]) = none
    ∧ parse_openai_response_into_decision fromStr
        (Json.obj [("choices", Json.arr [])]) = some (.Respond "") :=
  ⟨rfl, rfl⟩

/- ------------------------------------------------------------------
Claims about the conversation orchestrator (C3, C4, C10)
------------------------------------------------------------------ -/

/-- C3: from any state other than Ready, handle_message and
handle_message_stream fail immediately with the not-ready error and leave
the agent (message history and state field) exactly as it was. -/
theorem c3_not_ready_rejects_without_side_effects
    (cfg : AgentConfig) (tools : HMap Tool) (stools : List Tool)
    (events : List RoundEvent) (sevents : List StreamEvent)
    (st : AgentSt) (message : String)
    (h : st.state ≠ AgentState.Ready) :
    handle_message cfg tools events st message
      = some (st, .error .notReady)
    ∧ handle_message_stream cfg stools sevents st message
      = some (st, [], .error .notReady) := by
  obtain ⟨stm, s⟩ := st
  cases s with
  | Ready => exact absurd rfl h
  | _ => exact ⟨rfl, rfl⟩

/-- Witness for C3: a Processing-state agent rejects both entry points. -/
theorem c3_not_ready_witness :
    (AgentSt.mk [] AgentState.Processing).state ≠ AgentState.Ready
    ∧ handle_message ⟨"", 1, none, false, ⟨1⟩⟩ [] [] ⟨[], .Processing⟩ "x"
        = some (⟨[], .Processing⟩, .error .notReady)
    ∧ handle_message_stream ⟨"", 1, none, false, ⟨1⟩⟩ [] [] ⟨[], .Processing⟩ "x"
        = some (⟨[], .Processing⟩, [], .error .notReady) :=
  ⟨by decide,
   (c3_not_ready_rejects_without_side_effects ⟨"", 1, none, false, ⟨1⟩⟩
     [] [] [] [] ⟨[], .Processing⟩ "x" (by decide)).1,
   (c3_not_ready_rejects_without_side_effects ⟨"", 1, none, false, ⟨1⟩⟩
     [] [] [] [] ⟨[], .Processing⟩ "x" (by decide)).2⟩

/-- Recognizer for the timeout-branch terminal error of handle_message. -/
def resultIsTimeoutErr :
    Option (AgentSt × Except AgentErr String) → Bool
  | some (_, .error .timedOut) => true
  | _ => false

theorem handle_loop_never_timedOut (cfg : AgentConfig) (tools : HMap Tool)
    (events : List RoundEvent) :
    ∀ (retries : Nat) (stm ctx : List Message),
      resultIsTimeoutErr (handle_loop cfg tools events retries stm ctx)
        = false := by
  induction events with
  | nil =>
      intro r stm ctx
      unfold handle_loop
      split <;> rfl
  | cons ev rest ih =>
      intro r stm ctx
      unfold handle_loop
      by_cases h : r < cfg.retry_config.max_retries
      · simp only [if_pos h]
        cases ev with
        | timeout => simp only [if_pos h]; exact ih _ _ _
        | llmError e => rfl
        | decision d => cases d with
          | Respond resp => rfl
          | ExecuteTool txt tc => exact ih _ _ _
      · simp only [if_neg h]
        rfl

/-- C10: the "LLM request timed out" return inside the timeout arm of
handle_message is unreachable: the while guard has already ensured
retries < max_retries when a timeout is observed, so the inner re-check
always takes the increment-and-continue branch, and a run of
handle_message can never produce the timedOut error — retry exhaustion is
only ever reported by the after-loop retriesExceeded error. -/
theorem c10_timeout_branch_return_unreachable (cfg : AgentConfig)
    (tools : HMap Tool) (events : List RoundEvent) (st : AgentSt)
    (message : String) :
    resultIsTimeoutErr (handle_message cfg tools events st message)
      = false := by
  obtain ⟨stm, s⟩ := st
  cases s with
  | Ready => exact handle_loop_never_timedOut cfg tools events 0 _ _
  | _ => rfl

theorem handle_loop_timeouts_exhaust (cfg : AgentConfig) (tools : HMap Tool) :
    ∀ (k r : Nat) (stm ctx : List Message),
      r + k = cfg.retry_config.max_retries →
      handle_loop cfg tools (List.replicate k .timeout) r stm ctx
        = some (⟨stm, .Processing⟩, .error .retriesExceeded) := by
  intro k
  induction k with
  | zero =>
      intro r stm ctx h
      have hr : ¬ r < cfg.retry_config.max_retries := by omega
      simp [List.replicate, handle_loop, hr]
  | succ k ih =>
      intro r stm ctx h
      have hr : r < cfg.retry_config.max_retries := by omega
      simp only [List.replicate_succ, handle_loop, if_pos hr]
      exact ih (r + 1) stm ctx (by omega)

theorem handle_loop_timeouts_pending (cfg : AgentConfig) (tools : HMap Tool) :
    ∀ (k r : Nat) (stm ctx : List Message),
      r + k < cfg.retry_config.max_retries →
      handle_loop cfg tools (List.replicate k .timeout) r stm ctx = none := by
  intro k
  induction k with
  | zero =>
      intro r stm ctx h
      have hr : r < cfg.retry_config.max_retries := by omega
      simp [List.replicate, handle_loop, hr]
  | succ k ih =>
      intro r stm ctx h
      have hr : r < cfg.retry_config.max_retries := by omega
      simp only [List.replicate_succ, handle_loop, if_pos hr]
      exact ih (r + 1) stm ctx (by omega)

/-- C4 counterexample: with max_retries = 2, two timed-out provider
attempts already exhaust the loop: the call fails terminally with the
retry-exhaustion error after consuming exactly 2 provider rounds (so a
third attempt, which the figure of "3 provider attempts in total" in the claim would
require, never happens), while after a single timed-out attempt the call
is still waiting on another provider round (the run is not yet decided
with only one event supplied).  History carries only the appended user
message: the timeouts themselves left it unchanged. -/
theorem c4_counterexample_two_attempts :
    handle_message ⟨"p", 5, some 1000, false, ⟨2⟩⟩ [] [.timeout, .timeout]
        ⟨[], .Ready⟩ "hi"
      = some (⟨[Message.user "hi"], .Processing⟩, .error .retriesExceeded)
    ∧ handle_message ⟨"p", 5, some 1000, false, ⟨2⟩⟩ [] [.timeout]
        ⟨[], .Ready⟩ "hi" = none :=
  ⟨rfl, rfl⟩

/-- C4 (amended): with max_retries = 2 and every provider request timing
out, handle_message fails with the retry-exhaustion error after exactly 2
provider attempts in total — i.e. 1 extra attempt beyond the first, the
loop making exactly max_retries attempts — and a timeout with retries
remaining re-attempts without changing history (the final history holds
only the user message appended before the loop). -/
theorem c4_retry_exhaustion_after_two_attempts (cfg : AgentConfig)
    (tools : HMap Tool) (stm0 : List Message) (message : String)
    (h : cfg.retry_config.max_retries = 2) :
    handle_message cfg tools [.timeout, .timeout] ⟨stm0, .Ready⟩ message
      = some (⟨stm0 ++ [Message.user message], .Processing⟩,
              .error .retriesExceeded)
    ∧ handle_message cfg tools [.timeout] ⟨stm0, .Ready⟩ message = none := by
  constructor
  · show handle_loop cfg tools [.timeout, .timeout] 0 _ _ = _
    have : ([RoundEvent.timeout, RoundEvent.timeout])
        = List.replicate 2 RoundEvent.timeout := rfl
    rw [this]
    exact handle_loop_timeouts_exhaust cfg tools 2 0 _ _ (by omega)
  · show handle_loop cfg tools [.timeout] 0 _ _ = _
    have : ([RoundEvent.timeout]) = List.replicate 1 RoundEvent.timeout := rfl
    rw [this]
    exact handle_loop_timeouts_pending cfg tools 1 0 _ _ (by omega)

/-- Witness for the amended C4 theorem at a concrete configuration. -/
theorem c4_retry_exhaustion_witness :
    (AgentConfig.mk "sys" 3 (some 50) false ⟨2⟩).retry_config.max_retries = 2
    ∧ handle_message ⟨"sys", 3, some 50, false, ⟨2⟩⟩ [] [.timeout, .timeout]
        ⟨[Message.system "sys"], .Ready⟩ "go"
      = some (⟨[Message.system "sys", Message.user "go"], .Processing⟩,
              .error .retriesExceeded)
    ∧ handle_message ⟨"sys", 3, some 50, false, ⟨2⟩⟩ [] [.timeout]
        ⟨[Message.system "sys"], .Ready⟩ "go" = none :=
  ⟨rfl,
   (c4_retry_exhaustion_after_two_attempts _ [] [Message.system "sys"] "go" rfl).1,
   (c4_retry_exhaustion_after_two_attempts _ [] [Message.system "sys"] "go" rfl).2⟩

/- ------------------------------------------------------------------
Claim about the context window manager (C5)
------------------------------------------------------------------ -/

theorem take_within_budget_sum (mt : Nat) (l : List Message) :
    ∀ total : Nat, total ≤ mt →
      total + tokensSum (take_within_budget mt total l) ≤ mt := by
  induction l with
  | nil =>
      intro total h
      simp [take_within_budget, tokensSum]
      exact h
  | cons m rest ih =>
      intro total h
      by_cases hover : total + estimate_tokens (msgContent m) > mt
      · simp [take_within_budget, hover, tokensSum]
        exact h
      · have hfits : total + estimate_tokens (msgContent m) ≤ mt := by omega
        have := ih (total + estimate_tokens (msgContent m)) hfits
        simp only [take_within_budget, if_neg hover, tokensSum,
          List.map_cons, List.sum_cons] at *
        omega

theorem take_within_budget_is_front (mt : Nat) (l : List Message) :
    ∀ total : Nat, ∃ post, take_within_budget mt total l ++ post = l := by
  induction l with
  | nil => intro total; exact ⟨[], rfl⟩
  | cons m rest ih =>
      intro total
      by_cases hover : total + estimate_tokens (msgContent m) > mt
      · exact ⟨m :: rest, by simp [take_within_budget, hover]⟩
      · obtain ⟨post, hpost⟩ := ih (total + estimate_tokens (msgContent m))
        exact ⟨post, by simp [take_within_budget, hover, hpost]⟩

theorem tokensSum_reverse (l : List Message) :
    tokensSum l.reverse = tokensSum l := by
  simp [tokensSum, List.map_reverse, List.sum_reverse]

/-- C5: the token-budgeted view never exceeds the budget — in fact the
trimming loop stops before the first message that would overflow, so not
even the newest message is allowed to exceed it (the allowance "except
possibly for a single undroppable newest message" allowance is never
needed); if even the single newest message exceeds the budget the view is
empty; and the view is a suffix of the unchanged underlying history (the
embedding takes the history by value — get_context_messages is &self in
Rust — so computing a view alters neither its length nor its content). -/
theorem c5_token_budget_view (messages : List Message) (budget : Nat) :
    tokensSum (get_context_messages messages (some budget)) ≤ budget
    ∧ (∀ m rest, messages.reverse = m :: rest →
        budget < estimate_tokens (msgContent m) →
        get_context_messages messages (some budget) = [])
    ∧ (∃ pre, pre ++ get_context_messages messages (some budget) = messages) := by
  refine ⟨?_, ?_, ?_⟩
  · show tokensSum (take_within_budget budget 0 messages.reverse).reverse ≤ budget
    rw [tokensSum_reverse]
    have := take_within_budget_sum budget messages.reverse 0 (by omega)
    omega
  · intro m rest hrev hbig
    show (take_within_budget budget 0 messages.reverse).reverse = []
    rw [hrev]
    have h0 : 0 + estimate_tokens (msgContent m) > budget := by omega
    simp only [take_within_budget, if_pos h0, List.reverse_nil]
  · obtain ⟨post, hpost⟩ := take_within_budget_is_front budget messages.reverse 0
    refine ⟨post.reverse, ?_⟩
    show post.reverse ++ (take_within_budget budget 0 messages.reverse).reverse
        = messages
    rw [← List.reverse_append, hpost, List.reverse_reverse]

/-- Witness for C5: a 4-word message estimated at 5 tokens against a
budget of 3 yields the empty view, whose summed cost is within budget. -/
theorem c5_token_budget_witness :
    ([Message.user "aaaa bbbb cccc dddd"] : List Message).reverse
        = [Message.user "aaaa bbbb cccc dddd"]
    ∧ 3 < estimate_tokens (msgContent (Message.user "aaaa bbbb cccc dddd"))
    ∧ get_context_messages [Message.user "aaaa bbbb cccc dddd"] (some 3) = []
    ∧ tokensSum (get_context_messages [Message.user "aaaa bbbb cccc dddd"]
        (some 3)) ≤ 3 :=
  ⟨rfl, by decide,
   (c5_token_budget_view [Message.user "aaaa bbbb cccc dddd"] 3).2.1
     (Message.user "aaaa bbbb cccc dddd") [] rfl (by decide),
   (c5_token_budget_view [Message.user "aaaa bbbb cccc dddd"] 3).1⟩

/- ------------------------------------------------------------------
Claim about the failure notices appended by the two round loops (C7)
------------------------------------------------------------------ -/

/-- sub occurs somewhere inside s. -/
def strHas (s sub : String) : Prop :=
  ∃ pre post : String, s = pre ++ sub ++ post

/-- Executable substring check, for concrete refutations. -/
def strHasB (s sub : String) : Bool :=
  (List.range (s.data.length + 1)).any
    (fun i => sub.data.isPrefixOf (s.data.drop i))

/-- A tool that always fails, for the C7 scenario. -/
def c7_fail_tool : Tool := ⟨"ft", fun _ => .error "boom"⟩

/-- A single call to the failing tool. -/
def c7_tcm : HMap ToolCallArgs := [("id1", ⟨"function", "ft", Json.null⟩)]

/-- One streamed round requesting the failing tool, then one responding. -/
def c7_events : List StreamEvent :=
  [.chunks [.ok (.ExecuteTool "" c7_tcm)], .chunks [.ok (.Respond "done")]]

/-- C7 counterexample: in the streaming variant a failed tool call appends
the Tool message "工具 ft 执行失败（错误信息：boom）。", which contains the
tool name and the error but NOT the no-retry statement "由于无法重试" that
the claim requires (and that the notice of handle_message does contain): the
streaming variant does not perform the same step. -/
theorem c7_counterexample_stream_notice_lacks_no_retry :
    handle_message_stream ⟨"p", 5, some 1000, false, ⟨2⟩⟩ [c7_fail_tool]
        c7_events ⟨[], .Ready⟩ "hi"
      = some (⟨[Message.user "hi",
                Message.assistant "" (some c7_tcm),
                Message.tool "工具 ft 执行失败（错误信息：boom）。" "id1",
                Message.assistant "done" none], .Ready⟩,
              [Except.ok "", Except.ok "done"], Except.ok ())
    ∧ stream_fail_notice "ft" "boom" = "工具 ft 执行失败（错误信息：boom）。"
    ∧ strHasB "工具 ft 执行失败（错误信息：boom）。" "由于无法重试" = false
    ∧ strHasB (fail_notice "ft" "boom") "由于无法重试" = true :=
  ⟨rfl, rfl, by decide, by decide⟩

/-- Splitting the tail literal of fail_notice around the no-retry text. -/
theorem fail_notice_tail_split :
    ("）。由于无法重试，请考虑使用其他方式解决问题或给出合适的响应。" : String)
      = "）。" ++ ("由于无法重试" ++ "，请考虑使用其他方式解决问题或给出合适的响应。") :=
  rfl

/-- C7 (amended): in handle_message every failed call appends a Tool
message whose content (fail_notice) states the tool name, the error text
and that no retry will occur, and the round loop continues at the SAME
retry count (the ExecuteTool arm recurses without touching it); the
streaming variant performs the same continue-at-same-retry-count step but
its notice (stream_fail_notice, built inside apply_tool_round_stream)
states only the tool name and the error, omitting the no-retry
statement. -/
theorem c7_tool_failure_notice_no_retry_consumed :
    (∀ (cfg : AgentConfig) (tools : HMap Tool) (txt : String)
        (tc : HMap ToolCallArgs) (rest : List RoundEvent) (r : Nat)
        (stm ctx : List Message),
        r < cfg.retry_config.max_retries →
        handle_loop cfg tools (.decision (.ExecuteTool txt tc) :: rest) r stm ctx
          = handle_loop cfg tools rest r (apply_tool_round tools stm txt tc)
              (get_context_messages (apply_tool_round tools stm txt tc)
                cfg.max_tokens))
    ∧ (∀ name err : String,
        strHas (fail_notice name err) name
        ∧ strHas (fail_notice name err) err
        ∧ strHas (fail_notice name err) "由于无法重试")
    ∧ (∀ (cfg : AgentConfig) (tools : List Tool) (txt : String)
        (tc : HMap ToolCallArgs) (rest : List StreamEvent) (r : Nat)
        (stm ctx : List Message) (fr : String)
        (acc : List (Except AgentErr String)) (stm3 : List Message),
        apply_tool_round_stream tools stm (fr ++ txt) tc = some stm3 →
        stream_loop cfg tools (.chunks [.ok (.ExecuteTool txt tc)] :: rest)
            r stm ctx fr acc
          = stream_loop cfg tools rest r stm3
              (get_context_messages stm3 cfg.max_tokens) "" (acc ++ [.ok txt])) := by
  refine ⟨?_, ?_, ?_⟩
  · intro cfg tools txt tc rest r stm ctx h
    simp only [handle_loop, if_pos h]
  · intro name err
    refine ⟨?_, ?_, ?_⟩
    · refine ⟨"工具 ",
        " 执行失败（错误信息：" ++ err ++
          "）。由于无法重试，请考虑使用其他方式解决问题或给出合适的响应。", ?_⟩
      simp [fail_notice, String.append_assoc]
    · refine ⟨"工具 " ++ name ++ " 执行失败（错误信息：",
        "）。由于无法重试，请考虑使用其他方式解决问题或给出合适的响应。", ?_⟩
      simp [fail_notice, String.append_assoc]
    · refine ⟨"工具 " ++ name ++ " 执行失败（错误信息：" ++ err ++ "）。",
        "，请考虑使用其他方式解决问题或给出合适的响应。", ?_⟩
      simp [fail_notice, String.append_assoc, fail_notice_tail_split]
  · intro cfg tools txt tc rest r stm ctx fr acc stm3 h
    simp only [stream_loop, process_chunks, List.nil_append]
    rw [h]

/-- Single missing-tool call for the C7 witness. -/
def c7w_tc : HMap ToolCallArgs := [("i", ⟨"function", "nosuch", Json.null⟩)]

/-- Resulting history of the C7 witness stream round. -/
def c7w_stm3 : List Message :=
  [Message.assistant "x" (some c7w_tc),
   Message.tool (stream_fail_notice "nosuch" "Tool nosuch does not exist!") "i"]

/-- Witness for the amended C7 theorem at concrete inputs. -/
theorem c7_notice_witness :
    0 < (AgentConfig.mk "" 1 none false ⟨1⟩).retry_config.max_retries
    ∧ handle_loop ⟨"", 1, none, false, ⟨1⟩⟩ []
        [.decision (.ExecuteTool "t" [])] 0 [] []
      = handle_loop ⟨"", 1, none, false, ⟨1⟩⟩ [] [] 0
          (apply_tool_round [] [] "t" [])
          (get_context_messages (apply_tool_round [] [] "t" []) none)
    ∧ strHas (fail_notice "n" "e") "由于无法重试"
    ∧ apply_tool_round_stream [] [] ("" ++ "x") c7w_tc = some c7w_stm3
    ∧ stream_loop ⟨"", 1, none, false, ⟨1⟩⟩ []
        [.chunks [.ok (.ExecuteTool "x" c7w_tc)]] 0 [] [] "" []
      = stream_loop ⟨"", 1, none, false, ⟨1⟩⟩ [] [] 0 c7w_stm3
          (get_context_messages c7w_stm3 none) "" ([] ++ [.ok "x"]) :=
  ⟨by decide,
   c7_tool_failure_notice_no_retry_consumed.1 ⟨"", 1, none, false, ⟨1⟩⟩
     [] "t" [] [] 0 [] [] (by decide),
   (c7_tool_failure_notice_no_retry_consumed.2.1 "n" "e").2.2,
   rfl,
   c7_tool_failure_notice_no_retry_consumed.2.2 ⟨"", 1, none, false, ⟨1⟩⟩
     [] "x" c7w_tc [] 0 [] [] "" [] c7w_stm3 rfl⟩

end Chimerai
